import Mathlib

/-!
Verification development for the uloady host registry and selection engine
(src/uloady.ts). The TypeScript source is shallowly embedded: pure functions
become Lean functions, JavaScript `Map` objects become association lists with
JS insertion-order semantics, thrown `Error` values become `Except` errors
carrying the thrown message string, and the two external effects (fetch and
crypto.randomInt) become explicit parameters.
-/

namespace Uloady

/-! ## Data model

`FormValue` models the value type of `FileHost.formValues`
(`string | symbol`): the only symbol ever stored is `FileHost.dataToken`, so
the value space is a literal string or the data marker. -/

inductive FormValue where
  | str (s : String)
  | dataToken
deriving DecidableEq, Repr

/-- One constructor per `FileHost` subclass, in declaration order.
`OxOst` is the class whose conceptual name is 0x0st ; `GoFileIo` is the
class spelled GoFileIO in the source. -/
inductive HostCtor where
  | Catbox
  | X0at
  | OxOst
  | TmpFiles
  | UploadPie
  | PutNu
  | GoFileIo
  | Uguu
  | FileDitch
  | PomfLain
  | LewdPics
  | QuestionableLink
  | TempSh
  | Blicky
deriving DecidableEq, Repr

/-- The statically declared per-class fields (maxFileSize, url, formValues,
default), with inheritance from X0at / Uguu / FileHost resolved exactly as in
the source. The two per-host transform functions (fileNameFixup,
responseFixup) are not part of this record: no claim depends on their
output, and three of them call platform functions (JSON.parse,
crypto.randomInt); they are supplied as oracles where `upload` needs them. -/
structure HostClass where
  maxFileSize : Nat
  url : String
  formValues : List (String × FormValue)
  «default» : Bool
deriving DecidableEq, Repr

/-- Mirrors the source type `FileHostInfo`:
`{constructor, maxFileSize, default}`. The class constructor is identified by
its `HostCtor` tag. -/
structure FileHostInfo where
  ctor : HostCtor
  maxFileSize : Nat
  «default» : Bool
deriving DecidableEq, Repr

/-- A Blob as used by main/upload: only its byte size is ever inspected by
the code the claims are about. -/
structure Blob where
  size : Nat
deriving DecidableEq, Repr

/-- One entry appended to the multipart FormData body:
`formData.append(property, value)` or
`formData.append(property, data, fileName)`. -/
inductive FormPart where
  | field (property value : String)
  | file (property : String) (data : Blob) (fileName : String)
deriving DecidableEq, Repr

/-- The Request built by `upload` before the dry-run check: POST to the
descriptor url with the fixed user-agent header and the multipart body. -/
structure Request where
  url : String
  method : String
  userAgent : String
  body : List FormPart
deriving DecidableEq, Repr

/-- Outcome of `fetch(request)`: a response with ok status whose text was
read, a response with a non-ok status (thrown by the source), or a transport
failure (rejected promise). -/
inductive FetchOutcome where
  | success (body : String)
  | failure (status : Nat)
  | networkError (msg : String)
deriving DecidableEq, Repr

/-- Errors `upload` can produce: the thrown non-ok Response, or a transport
failure. (The source also throws on a formValues value that is neither a
string nor the data token; that branch is unreachable here because
`FormValue` has exactly those two cases.) -/
inductive UploadErr where
  | responseNotOk (status : Nat)
  | networkFail (msg : String)
deriving DecidableEq, Repr

/-- The descriptor data `upload` reads off `this`: url, formValues and the
two transform functions. -/
structure UploadEnv where
  url : String
  formValues : List (String × FormValue)
  fileNameFixup : String → String
  responseFixup : String → String

/-- The parsed command-line flags main receives from util.parseArgs
(argument parsing itself is an external collaborator per the spec).
`dryRun` is the parsed value of the dry-run / -n flag. -/
structure Flags where
  help : Bool
  dryRun : Bool
  service : Option String

/-- Per-file errors caught in the loop of `main`. -/
inductive RunError where
  | openFailed (msg : String)
  | selection (msg : String)
  | uploadFailed (e : UploadErr)
deriving DecidableEq, Repr

/-! ## String helpers

JS strings are sequences of UTF-16 units; the operations the source applies
to host-selection strings (split on a comma, trim) are embedded over
`List Char`. -/

/-- The ECMAScript WhiteSpace and LineTerminator code points removed by
`String.prototype.trim`. -/
def jsWs (c : Char) : Bool :=
  c.toNat = 0x9 ∨ c.toNat = 0xA ∨ c.toNat = 0xB ∨ c.toNat = 0xC ∨
  c.toNat = 0xD ∨ c.toNat = 0x20 ∨ c.toNat = 0xA0 ∨ c.toNat = 0x1680 ∨
  (0x2000 ≤ c.toNat ∧ c.toNat ≤ 0x200A) ∨
  c.toNat = 0x2028 ∨ c.toNat = 0x2029 ∨ c.toNat = 0x202F ∨
  c.toNat = 0x205F ∨ c.toNat = 0x3000 ∨ c.toNat = 0xFEFF

/-- `String.prototype.trim`: strip leading and trailing whitespace. -/
def jsTrim (l : List Char) : List Char :=
  ((l.dropWhile jsWs).reverse.dropWhile jsWs).reverse

/-- `String.prototype.split(',')` with a single-character separator and no
limit: the empty string yields `[""]`, and every comma starts a new token. -/
def splitComma : List Char → List (List Char)
  | [] => [[]]
  | c :: rest =>
    if c = ',' then [] :: splitComma rest
    else
      match splitComma rest with
      | t :: ts => (c :: t) :: ts
      | [] => [[c]]

/-- Node posix `path.basename` without the suffix argument (the only form
the selection/error path uses): strip trailing slashes, then take everything
after the last slash; an all-slash path gives "/" and the empty path gives
the empty string. -/
def basenameChars (l : List Char) : List Char :=
  if l = [] then []
  else
    let stripped := (l.reverse.dropWhile (· = '/')).reverse
    if stripped = [] then ['/']
    else (stripped.reverse.takeWhile (· ≠ '/')).reverse

def basename (s : String) : String :=
  String.mk (basenameChars s.data)

/-! ## Human-size formatter (getHumanFileSize, source lines 543-554)

The source divides a JS number (an IEEE double) by 1024 while it is ≥ 1024.
Every input reaching this function is a byte count below 2^53, exactly
representable, and division by 1024 only shifts the exponent, so the loop
computes the exact rational value `a / 1024^k`; the value is tracked here as
the exact pair (numerator, denominator). `Number.prototype.toPrecision(3)`
is embedded by its ECMAScript definition over that exact rational. -/

/-- Decimal digit count, fuel-based so the kernel can evaluate it
(`digits10 n` for n ≥ 1 is the number of decimal digits of n). -/
def digits10Go : Nat → Nat → Nat
  | 0, _ => 0
  | fuel + 1, n => if n < 10 then 1 else digits10Go fuel (n / 10) + 1

def digits10 (n : Nat) : Nat := digits10Go n n

/-- For 0 < a < d: the smallest k with d ≤ a * 10^k, i.e. the number of
leading zeros (plus one) of a/d; bounded search, default 0 is unreachable
for a > 0. -/
def findK (a d : Nat) : Nat :=
  (((List.range (digits10 d + 2)).filter (fun k => d ≤ a * 10 ^ k)).head?).getD 0

/-- Render k as two decimal digits (used for the fractional part). -/
def pad2 (k : Nat) : String :=
  if k < 10 then "0" ++ toString k else toString k

/-- Render a 3-digit significand n (100 ≤ n ≤ 999) as "d.dd". -/
def digitStr (n : Nat) : String :=
  toString (n / 100) ++ "." ++ pad2 (n % 100)

/-- `x.toPrecision(3)` for the exact nonnegative rational x = a / d, per
ECMAScript: pick the exponent e with 10^e ≤ x < 10^(e+1), round x to a
3-digit significand n (nearest, ties to the larger n), carry into the next
decade when the significand rounds to 1000, and format — fixed notation for
-6 ≤ e < 3, exponential notation otherwise. -/
def toPrecision3q (a d : Nat) : String :=
  if a = 0 ∨ d = 0 then "0.00"
  else
    let e : Int := if d ≤ a then (digits10 (a / d) : Int) - 1 else -(findK a d : Int)
    let n : Nat :=
      if e ≤ 2 then (2 * a * 10 ^ (2 - e).toNat + d) / (2 * d)
      else (2 * a + d * 10 ^ (e - 2).toNat) / (2 * d * 10 ^ (e - 2).toNat)
    let ne : Nat × Int := if n = 1000 then (100, e + 1) else (n, e)
    let n := ne.1
    let e := ne.2
    if 3 ≤ e then digitStr n ++ "e+" ++ toString e
    else if e = 2 then toString n
    else if e = 1 then toString (n / 10) ++ "." ++ toString (n % 10)
    else if e = 0 then digitStr n
    else if -6 ≤ e then
      "0." ++ String.mk (List.replicate (-e - 1).toNat '0') ++ toString n
    else digitStr n ++ "e-" ++ toString (-e)

def humanUnits : List String := ["B", "KiB", "MiB", "GiB", "TiB", "PiB"]

/-- The for-of loop of getHumanFileSize: on each unit, stop if the value is
below 1024, else divide by 1024 and move to the next unit; when the units
run out the last unit assigned stays in `suffix`. The value a/d is kept as
an exact pair. -/
def humanLoop (a d : Nat) (units : List String) (last : String) :
    (Nat × Nat) × String :=
  match units with
  | [] => ((a, d), last)
  | u :: rest =>
    if a < 1024 * d then ((a, d), u)
    else humanLoop a (d * 1024) rest u

def getHumanFileSize (fileSize : Nat) : String :=
  let r := humanLoop fileSize 1 humanUnits ("")
  toPrecision3q r.1.1 r.1.2 ++ r.2

/-! ## Registry (FileHost.subClass, the @FileHost.subClass decorators) -/

/-- The static fields of each subclass, inheritance resolved:
OxOst / TmpFiles / PutNu / GoFileIO extend X0at; FileDitch / PomfLain extend
Uguu; `default` is true unless the class overrides it. -/
def hostClass : HostCtor → HostClass
  | .Catbox =>
    { maxFileSize := 200 * 1024 * 1024
      url := "https://catbox.moe/user/api.php"
      formValues := [("reqtype", .str "fileupload"), ("fileToUpload", .dataToken)]
      «default» := true }
  | .X0at =>
    { maxFileSize := 512 * 1024 * 1024
      url := "https://x0.at"
      formValues := [("file", .dataToken)]
      «default» := true }
  | .OxOst =>
    -- extends X0at; only the url is overridden
    { maxFileSize := 512 * 1024 * 1024
      url := "https://0x0.st"
      formValues := [("file", .dataToken)]
      «default» := true }
  | .TmpFiles =>
    -- extends X0at; formValues inherited
    { maxFileSize := 100 * 1024 * 1024
      url := "https://tmpfiles.org/api/v1/upload"
      formValues := [("file", .dataToken)]
      «default» := false }
  | .UploadPie =>
    { maxFileSize := 3 * 1024 * 1024
      url := "https://uploadpie.com/"
      formValues :=
        [("upload", .str "1"), ("expire", .str "3"), ("uploadedfile", .dataToken)]
      «default» := false }
  | .PutNu =>
    -- extends X0at; formValues and default inherited
    { maxFileSize := 50 * 1024 * 1024 * 1024
      url := "http://put.nu/py/main.py"
      formValues := [("file", .dataToken)]
      «default» := true }
  | .GoFileIo =>
    -- extends X0at; formValues inherited
    { maxFileSize := 50 * 1024 * 1024 * 1024
      url := "https://upload.gofile.io/uploadfile"
      formValues := [("file", .dataToken)]
      «default» := false }
  | .Uguu =>
    { maxFileSize := 128 * 1024 * 1024
      url := "https://uguu.se/upload?output=text"
      formValues := [("files[]", .dataToken)]
      «default» := true }
  | .FileDitch =>
    -- extends Uguu; formValues inherited
    { maxFileSize := 10 * 1024 * 1024 * 1024
      url := "https://up1.fileditch.com/upload.php?output=text"
      formValues := [("files[]", .dataToken)]
      «default» := false }
  | .PomfLain =>
    -- extends Uguu; formValues and default inherited
    { maxFileSize := 1024 * 1024 * 1024
      url := "https://pomf.lain.la/upload.php?output=text"
      formValues := [("files[]", .dataToken)]
      «default» := true }
  | .LewdPics =>
    { maxFileSize := 25 * 1024 * 1024
      url := "https://lewd.pics/p/"
      formValues :=
        [("exifData", .str "no"), ("curl2", .str "1"), ("fileToUpload", .dataToken)]
      «default» := false }
  | .QuestionableLink =>
    { maxFileSize := 95 * 1024 * 1024
      url := "https://questionable.link/api/files/create"
      formValues := [("file", .dataToken), ("noembed", .str "true")]
      «default» := false }
  | .TempSh =>
    { maxFileSize := 4 * 1024 * 1024 * 1024
      url := "https://temp.sh/upload"
      formValues := [("file", .dataToken)]
      «default» := false }
  | .Blicky =>
    { maxFileSize := 100 * 1024 * 1024
      url := "https://f.blicky.net/script.php"
      formValues := [("file", .dataToken)]
      «default» := false }

/-- The registry key computed by FileHost.subClass: context.name lowercased,
with the OxOst spaghetti fixup to "0x0st". -/
def subClassName : HostCtor → String
  | .Catbox => "catbox"
  | .X0at => "x0at"
  | .OxOst => "0x0st"
  | .TmpFiles => "tmpfiles"
  | .UploadPie => "uploadpie"
  | .PutNu => "putnu"
  | .GoFileIo => "gofileio"
  | .Uguu => "uguu"
  | .FileDitch => "fileditch"
  | .PomfLain => "pomflain"
  | .LewdPics => "lewdpics"
  | .QuestionableLink => "questionablelink"
  | .TempSh => "tempsh"
  | .Blicky => "blicky"

/-- All subclasses in source declaration order (the order the class
decorators run and register). -/
def allHosts : List HostCtor :=
  [.Catbox, .X0at, .OxOst, .TmpFiles, .UploadPie, .PutNu, .GoFileIo,
   .Uguu, .FileDitch, .PomfLain, .LewdPics, .QuestionableLink, .TempSh, .Blicky]

/-- JS `Map.prototype.set` over an insertion-ordered association list: an
existing key keeps its position and gets the new value, a new key is
appended. -/
def mapSet {α : Type} : List (String × α) → String → α → List (String × α)
  | [], k, v => [(k, v)]
  | (k0, v0) :: rest, k, v =>
    if k0 = k then (k, v) :: rest else (k0, v0) :: mapSet rest k v

/-- `FileHost.derivedClass` after all fourteen decorators have run. -/
def derivedClass : List (String × FileHostInfo) :=
  allHosts.foldl
    (fun m c =>
      mapSet m (subClassName c)
        { ctor := c
          maxFileSize := (hostClass c).maxFileSize
          «default» := (hostClass c).default })
    []

/-! ## Selection engine (FileHost.service, source lines 100-153) -/

/-- The candidate map built by the serviceNames === undefined branch
(source lines 105-111). The source creates `services` as a new empty Map and
then iterates over `services` itself — not over `FileHost.derivedClass` —
so the loop body never runs and the map stays empty. (The adjacent comment,
"Set services to all the possible services", and the spec both describe an
iteration over the registry filtered by the default flag; the code as
written yields the empty map.) -/
def defaultServices : List (String × FileHostInfo) := []

/-- splitOn-comma tokens of the selection string with each token trimmed
(source line 113), before the trailing-empty-token pop. -/
def wantedTokensBase (s : String) : List String :=
  (splitComma s.data).map (fun t => String.mk (jsTrim t))

/-- Source lines 113-117: split on commas, trim each token, and pop one
trailing empty token ("comma is optional for the last element"). -/
def wantedTokens (s : String) : List String :=
  let ws := wantedTokensBase s
  if ws.getLast? = some ("") then ws.dropLast else ws

/-- The message of the Error thrown for an unregistered name (source line
124). The template interpolates the `services` Map being built, which
stringifies as [object Map]. -/
def unknownServiceMsg (name : String) : String :=
  "unknown service \x27" ++ name ++ "\x27 in \x27[object Map]\x27"

/-- The message of the Error thrown when no candidate can take the file
(source lines 139-143). -/
def tooLargeMsg (fileName : String) (fileSize maxFileSize : Nat) : String :=
  "\n\tfile too large: \x27" ++ basename fileName ++ "\x27\n" ++
  "\tfile size: " ++ getHumanFileSize fileSize ++ "\n" ++
  "\tmaximum size: " ++ getHumanFileSize maxFileSize

/-- Source lines 121-127: look every requested name up in derivedClass,
throwing on the first unknown one, and collect the hits with Map.set. -/
def lookupServices :
    List String → List (String × FileHostInfo) →
    Except String (List (String × FileHostInfo))
  | [], acc => .ok acc
  | name :: rest, acc =>
    match List.lookup name derivedClass with
    | none => .error (unknownServiceMsg name)
    | some info => lookupServices rest (mapSet acc name info)

/-- Candidate-set construction, source lines 105-128: the undefined branch,
the single-token "default" branch (which re-enters service with undefined
and therefore uses the same candidate map), and the user-named branch. -/
def serviceCandidates (serviceNames : Option String) :
    Except String (List (String × FileHostInfo)) :=
  match serviceNames with
  | none => .ok defaultServices
  | some s =>
    let ws := wantedTokens s
    if ws = [("default" : String)] then .ok defaultServices
    else lookupServices ws []

/-- The running maximum of source lines 131-133, seeded with 0. The JS Map
iteration visits every original entry even as too-small entries are deleted
mid-loop, so the maximum ranges over the pre-filter candidate set. -/
def maxOfServices (l : List (String × FileHostInfo)) : Nat :=
  l.foldl (fun m e => max m e.2.maxFileSize) 0

/-- Source lines 130-152, on an already-built candidate map. Deleting an
entry from a JS Map while iterating it does not hide the remaining entries,
so the single pass of lines 130-137 is the running maximum over all
candidates plus a filter keeping the entries with fileSize ≤ maxFileSize.
The random pick of lines 146-152 takes the entry at index
crypto.randomInt(services.size); `pick % filtered.length` ranges over
exactly the indices randomInt can produce, so quantifying over `pick`
covers every possible run; the `none` case of `get?` cannot occur. -/
def pickService (pick : Nat) (fileName : String) (fileSize : Nat)
    (services : List (String × FileHostInfo)) : Except String FileHostInfo :=
  let maxFileSize := maxOfServices services
  let filtered := services.filter (fun e => fileSize ≤ e.2.maxFileSize)
  if filtered.length = 0 then
    .error (tooLargeMsg fileName fileSize maxFileSize)
  else
    match filtered.get? (pick % filtered.length) with
    | some e => .ok e.2
    | none => .error "unreachable"

/-- FileHost.service: build the candidate map, then size-filter and pick. -/
def service (pick : Nat) (serviceNames : Option String) (fileName : String)
    (fileSize : Nat) : Except String FileHostInfo :=
  match serviceCandidates serviceNames with
  | .error e => .error e
  | .ok services => pickService pick fileName fileSize services

/-! ## Upload executor (FileHost.upload, source lines 154-185) -/

/-- FileHost.upload for a host instance whose dryRun field is `dryRun`.
The first component records whether fetch was invoked; the body is built and
the Request constructed before the dry-run check, exactly as in the source,
and the dry-run branch returns the sentinel without touching fetch. -/
def upload (env : UploadEnv) (dryRun : Bool) (ua : String) (fileName : String)
    (data : Blob) (fetch : Request → FetchOutcome) :
    Bool × Except UploadErr String :=
  let formData := env.formValues.map (fun pv =>
    match pv.2 with
    | .dataToken => FormPart.file pv.1 data (env.fileNameFixup fileName)
    | .str v => FormPart.field pv.1 v)
  let request : Request :=
    { url := env.url, method := "POST", userAgent := ua, body := formData }
  if !dryRun then
    match fetch request with
    | .success body => (true, .ok (env.responseFixup body))
    | .failure status => (true, .error (.responseNotOk status))
    | .networkError m => (true, .error (.networkFail m))
  else
    (false, .ok "dry run")

/-! ## main (source lines 469-531) -/

/-- The upload environment main's chosen constructor yields: url and
formValues from the class, the two transform functions supplied per class by
the oracle `fns` (they involve JSON.parse and crypto.randomInt and no claim
depends on them). -/
def envOf (fns : HostCtor → (String → String) × (String → String))
    (c : HostCtor) : UploadEnv :=
  { url := (hostClass c).url
    formValues := (hostClass c).formValues
    fileNameFixup := (fns c).1
    responseFixup := (fns c).2 }

/-- The body of main's per-file try block (source lines 509-523): open the
file as a Blob, select a service for its size, construct the host with
`new service()` — no argument, so dryRun takes the declared default false;
the parsed dry-run flag is never forwarded — and upload. -/
def mainFileStep (fns : HostCtor → (String → String) × (String → String))
    (ua : String) (flags : Flags) (pick : Nat)
    (openAsBlob : String → Option Blob) (fetch : Request → FetchOutcome)
    (file : String) : Bool × Except RunError String :=
  let baseName := basename file
  match openAsBlob file with
  | none =>
    (false, .error (.openFailed ("unable to open \x27" ++ baseName ++ "\x27 as Blob")))
  | some data =>
    match service pick flags.service baseName data.size with
    | .error e => (false, .error (.selection e))
    | .ok info =>
      match upload (envOf fns info.ctor) false ua file data fetch with
      | (invoked, .ok url) => (invoked, .ok url)
      | (invoked, .error e) => (invoked, .error (.uploadFailed e))

/-- main after argument parsing: help short-circuits, no input file is an
error, and each file contributes 1 to the exit status on failure while
processing continues. `picks i` models the randomInt draw of the i-th
file's selection. -/
def mainRun (fns : HostCtor → (String → String) × (String → String))
    (ua : String) (flags : Flags) (files : List String) (picks : Nat → Nat)
    (openAsBlob : String → Option Blob) (fetch : Request → FetchOutcome) :
    Nat :=
  if flags.help then 0
  else if files.length = 0 then 1
  else
    files.enum.foldl
      (fun ret fi =>
        match (mainFileStep fns ua flags (picks fi.1) openAsBlob fetch fi.2).2 with
        | .error _ => 1
        | .ok _ => ret)
      0

/-! ## Helper lemmas -/

theorem string_data_append (s t : String) : (s ++ t).data = s.data ++ t.data :=
  rfl

theorem splitComma_ne_nil (l : List Char) : splitComma l ≠ [] := by
  cases l with
  | nil => simp [splitComma]
  | cons c rest =>
    unfold splitComma
    split
    · simp
    · split <;> simp

theorem splitComma_append_comma (l : List Char) :
    splitComma (l ++ [',']) = splitComma l ++ [[]] := by
  induction l with
  | nil => rfl
  | cons c rest ih =>
    show splitComma (c :: (rest ++ [','])) = splitComma (c :: rest) ++ [[]]
    by_cases hc : c = ','
    · simp [splitComma, hc, ih]
    · cases hsp : splitComma rest with
      | nil => exact absurd hsp (splitComma_ne_nil rest)
      | cons t ts => simp [splitComma, hc, ih, hsp]

theorem wantedTokensBase_append_comma (s : String) :
    wantedTokensBase (s ++ (",")) = wantedTokensBase s ++ [("")] := by
  unfold wantedTokensBase
  rw [string_data_append]
  show ((splitComma (s.data ++ [','])).map _) = _
  rw [splitComma_append_comma, List.map_append]
  rfl

theorem wantedTokens_append_comma (s : String)
    (h : (wantedTokensBase s).getLast? ≠ some ("")) :
    wantedTokens (s ++ (",")) = wantedTokens s := by
  simp only [wantedTokens, wantedTokensBase_append_comma, List.getLast?_concat,
    List.dropLast_concat]
  rw [if_pos trivial, if_neg h]

theorem foldl_max_init_le (l : List (String × FileHostInfo)) (a : Nat) :
    a ≤ l.foldl (fun m e => max m e.2.maxFileSize) a := by
  induction l generalizing a with
  | nil => exact Nat.le_refl a
  | cons h t ih =>
    exact Nat.le_trans (Nat.le_max_left a h.2.maxFileSize) (ih _)

theorem le_foldl_max (l : List (String × FileHostInfo)) (e : String × FileHostInfo)
    (he : e ∈ l) (a : Nat) :
    e.2.maxFileSize ≤ l.foldl (fun m x => max m x.2.maxFileSize) a := by
  induction l generalizing a with
  | nil => cases he
  | cons h t ih =>
    rcases List.mem_cons.mp he with rfl | hmem
    · exact Nat.le_trans (Nat.le_max_right a e.2.maxFileSize) (foldl_max_init_le t _)
    · exact ih hmem _

theorem foldl_max_attained (l : List (String × FileHostInfo)) (a : Nat) :
    l.foldl (fun m x => max m x.2.maxFileSize) a = a ∨
    ∃ e ∈ l, l.foldl (fun m x => max m x.2.maxFileSize) a = e.2.maxFileSize := by
  induction l generalizing a with
  | nil => exact Or.inl rfl
  | cons h t ih =>
    have hstep : (h :: t).foldl (fun m x => max m x.2.maxFileSize) a
        = t.foldl (fun m x => max m x.2.maxFileSize) (max a h.2.maxFileSize) := rfl
    rcases ih (max a h.2.maxFileSize) with heq | ⟨e, he, heq⟩
    · rcases Nat.le_total a h.2.maxFileSize with hle | hle
      · right
        exact ⟨h, List.mem_cons_self h t, by rw [hstep, heq, Nat.max_eq_right hle]⟩
      · left
        rw [hstep, heq, Nat.max_eq_left hle]
    · right
      exact ⟨e, List.mem_cons_of_mem h he, by rw [hstep, heq]⟩

theorem maxOfServices_le (l : List (String × FileHostInfo))
    (e : String × FileHostInfo) (he : e ∈ l) :
    e.2.maxFileSize ≤ maxOfServices l :=
  le_foldl_max l e he 0

theorem maxOfServices_attained (l : List (String × FileHostInfo)) (hne : l ≠ []) :
    ∃ e ∈ l, maxOfServices l = e.2.maxFileSize := by
  rcases foldl_max_attained l 0 with h0 | ⟨e, he, heq⟩
  · cases l with
    | nil => exact absurd rfl hne
    | cons h t =>
      refine ⟨h, List.mem_cons_self h t, ?_⟩
      have hle := maxOfServices_le (h :: t) h (List.mem_cons_self h t)
      have : maxOfServices (h :: t) = 0 := h0
      omega
  · exact ⟨e, he, heq⟩

theorem pickService_empty (pick : Nat) (fn : String) (fs : Nat)
    (svcs : List (String × FileHostInfo))
    (hemp : svcs.filter (fun e => fs ≤ e.2.maxFileSize) = []) :
    pickService pick fn fs svcs = .error (tooLargeMsg fn fs (maxOfServices svcs)) := by
  simp [pickService, hemp]

theorem pickService_ok_size (pick : Nat) (fn : String) (fs : Nat)
    (svcs : List (String × FileHostInfo)) (info : FileHostInfo)
    (h : pickService pick fn fs svcs = .ok info) : fs ≤ info.maxFileSize := by
  simp only [pickService] at h
  split at h
  · exact absurd h (by simp)
  · split at h
    · rename_i e he
      cases h
      have hmem : e ∈ svcs.filter (fun x => fs ≤ x.2.maxFileSize) :=
        List.get?_mem he
      simpa using (List.mem_filter.mp hmem).2
    · exact absurd h (by simp)

theorem lookupServices_first_unknown (ws : List String)
    (acc : List (String × FileHostInfo)) (t : String)
    (hf : ws.find? (fun n => (List.lookup n derivedClass).isNone) = some t) :
    lookupServices ws acc = .error (unknownServiceMsg t) := by
  induction ws generalizing acc with
  | nil => simp [List.find?] at hf
  | cons n rest ih =>
    cases hlk : List.lookup n derivedClass with
    | none =>
      have hf2 : some n = some t := by
        simpa [List.find?, hlk] using hf
      cases hf2
      simp [lookupServices, hlk]
    | some info =>
      have hf2 : rest.find? (fun m => (List.lookup m derivedClass).isNone)
          = some t := by
        simpa [List.find?, hlk] using hf
      simp only [lookupServices, hlk]
      exact ih _ hf2

theorem upload_network_path (env : UploadEnv) (ua fn : String) (data : Blob)
    (fetch : Request → FetchOutcome) :
    (upload env false ua fn data fetch).1 = true := by
  simp only [upload, Bool.not_false, if_pos]
  split <;> rfl

/-! ## Claim theorems -/

/-- C1. The claim says: with serviceNames undefined, the candidate set is
all default-flagged registered descriptors, and a fitting file gets some
default-eligible host, never a failure. The code instead iterates over the
freshly created empty `services` map (line 107), so the candidate set is
empty and every call with serviceNames undefined throws the file-too-large
error with a reported maximum of 0 bytes, whatever the file name or size. -/
theorem service_undefined_always_fails (pick : Nat) (fn : String) (fs : Nat) :
    service pick none fn fs = .error (tooLargeMsg fn fs 0) := rfl

/-- C2. Whenever FileHost.service returns a descriptor, the file size fits
under its maxFileSize: the size filter removes every smaller candidate
before the random pick, so the picked entry satisfies the bound. -/
theorem service_ok_respects_size (pick : Nat) (names : Option String)
    (fn : String) (fs : Nat) (info : FileHostInfo)
    (h : service pick names fn fs = .ok info) : fs ≤ info.maxFileSize := by
  unfold service at h
  cases hc : serviceCandidates names with
  | error e => rw [hc] at h; exact absurd h (by simp)
  | ok svcs =>
    rw [hc] at h
    exact pickService_ok_size pick fn fs svcs info h

/-- C2 witness: a 5-byte file requested on x0at is accepted and fits. -/
theorem service_ok_respects_size_witness :
    service 0 (some ("x0at")) ("f") 5
      = .ok { ctor := .X0at, maxFileSize := 536870912, «default» := true } ∧
    (5 : Nat) ≤ 536870912 :=
  ⟨rfl, service_ok_respects_size 0 (some ("x0at")) ("f") 5
    { ctor := .X0at, maxFileSize := 536870912, «default» := true } rfl⟩

/-- C3. When the size filter empties a nonempty candidate set, service fails
with the file-too-large message naming the display basename, the
human-readable file size, and the human-readable maximum taken over the
pre-filter candidate set; that reported maximum is attained by some
pre-filter candidate and bounds them all. -/
theorem service_noEligible_reports_prefilter_max (pick : Nat)
    (names : Option String) (fn : String) (fs : Nat)
    (pre : List (String × FileHostInfo))
    (hc : serviceCandidates names = .ok pre) (hne : pre ≠ [])
    (hemp : pre.filter (fun e => fs ≤ e.2.maxFileSize) = []) :
    service pick names fn fs = .error (tooLargeMsg fn fs (maxOfServices pre)) ∧
    (∃ e ∈ pre, maxOfServices pre = e.2.maxFileSize) ∧
    ∀ e ∈ pre, e.2.maxFileSize ≤ maxOfServices pre := by
  refine ⟨?_, maxOfServices_attained pre hne, fun e he => maxOfServices_le pre e he⟩
  unfold service
  rw [hc]
  exact pickService_empty pick fn fs pre hemp

/-- C3 witness: a 4 MiB file requested on uploadpie (3 MiB limit) fails with
the message reporting the 3 MiB pre-filter maximum. -/
theorem service_noEligible_reports_prefilter_max_witness :
    service 0 (some ("uploadpie")) ("f") 4194304
      = .error (tooLargeMsg ("f") 4194304
          (maxOfServices [(("uploadpie"),
            { ctor := .UploadPie, maxFileSize := 3145728, «default» := false })])) ∧
    (∃ e ∈ [(("uploadpie"),
        { ctor := .UploadPie, maxFileSize := 3145728,
          «default» := false : FileHostInfo })],
      maxOfServices [(("uploadpie"),
        { ctor := .UploadPie, maxFileSize := 3145728, «default» := false })]
        = e.2.maxFileSize) ∧
    ∀ e ∈ [(("uploadpie"),
        { ctor := .UploadPie, maxFileSize := 3145728,
          «default» := false : FileHostInfo })],
      e.2.maxFileSize ≤ maxOfServices [(("uploadpie"),
        { ctor := .UploadPie, maxFileSize := 3145728, «default» := false })] :=
  service_noEligible_reports_prefilter_max 0 (some ("uploadpie")) ("f") 4194304
    [(("uploadpie"), { ctor := .UploadPie, maxFileSize := 3145728, «default» := false })]
    rfl (by simp) rfl

/-- C4 counterexample: the selection string "default" contains the single
token "default", which is not a registered host name, yet service does not
fail with the unknown-service error naming it — it takes the default path
and fails with the file-too-large message instead. -/
theorem service_unknown_counterexample :
    List.lookup ("default") derivedClass = none ∧
    service 0 (some ("default")) ("f") 1 = .error (tooLargeMsg ("f") 1 0) ∧
    tooLargeMsg ("f") 1 0 ≠ unknownServiceMsg ("default") := by
  refine ⟨rfl, rfl, ?_⟩
  decide

/-- C4 amended: for every selection string whose token list is not the
single literal token "default", if some token is not a registered host name
then service fails with the unknown-service error naming the first such
token. -/
theorem service_unknown_first_token (pick : Nat) (s fn : String) (fs : Nat)
    (t : String) (hd : wantedTokens s ≠ [("default" : String)])
    (hf : (wantedTokens s).find?
      (fun n => (List.lookup n derivedClass).isNone) = some t) :
    service pick (some s) fn fs = .error (unknownServiceMsg t) := by
  have hcand : serviceCandidates (some s) = .error (unknownServiceMsg t) := by
    simp only [serviceCandidates]
    rw [if_neg hd]
    exact lookupServices_first_unknown (wantedTokens s) [] t hf
  unfold service
  rw [hcand]

/-- C4 witness: requesting "totallyfake" fails naming that token. -/
theorem service_unknown_first_token_witness :
    service 0 (some ("totallyfake")) ("f") 1
      = .error (unknownServiceMsg ("totallyfake")) :=
  service_unknown_first_token 0 ("totallyfake") ("f") 1 ("totallyfake")
    (by decide) (by decide)

/-- C5. The literal selection string "default" behaves exactly like passing
no selection: the same candidate map is built (the same empty map, given the
line-107 slip) and service returns the same result for every pick, file name
and size. -/
theorem service_default_literal_eq_undefined (pick : Nat) (fn : String) (fs : Nat) :
    serviceCandidates (some ("default")) = serviceCandidates none ∧
    service pick (some ("default")) fn fs = service pick none fn fs :=
  ⟨rfl, rfl⟩

/-- C6 counterexample: "x0at,," and "x0at," differ by one trailing comma but
build different candidate sets — only one trailing empty token is dropped,
so the extra comma leaves an empty token that fails lookup. -/
theorem serviceCandidates_trailing_comma_counterexample :
    serviceCandidates (some ("x0at,"))
      = .ok [(("x0at"), { ctor := .X0at, maxFileSize := 536870912, «default» := true })] ∧
    serviceCandidates (some ("x0at,,")) = .error (unknownServiceMsg ("")) ∧
    serviceCandidates (some ("x0at,,")) ≠ serviceCandidates (some ("x0at,")) := by
  refine ⟨rfl, rfl, ?_⟩
  intro hcontra
  rw [(rfl : serviceCandidates (some ("x0at,,")) = .error (unknownServiceMsg ("")))]
    at hcontra
  rw [(rfl : serviceCandidates (some ("x0at,"))
      = .ok [(("x0at"),
          { ctor := .X0at, maxFileSize := 536870912, «default» := true })])]
    at hcontra
  exact Except.noConfusion hcontra

/-- C6 amended: appending one trailing comma to a selection string whose
final comma-delimited token does not already trim to the empty string
yields an identical candidate set (the split tokens are trimmed and exactly
one trailing empty token is dropped). -/
theorem serviceCandidates_trailing_comma (s : String)
    (h : (wantedTokensBase s).getLast? ≠ some ("")) :
    serviceCandidates (some (s ++ (","))) = serviceCandidates (some s) := by
  simp only [serviceCandidates]
  rw [wantedTokens_append_comma s h]

/-- C6 witness: "a,b," and "a,b" build identical candidate sets. -/
theorem serviceCandidates_trailing_comma_witness :
    serviceCandidates (some (("a,b") ++ (","))) = serviceCandidates (some ("a,b")) :=
  serviceCandidates_trailing_comma ("a,b") (by decide)

/-- C7. With dryRun set, upload builds the form body and request but never
invokes fetch and returns the sentinel "dry run", for every descriptor
environment, user agent, file name, blob and fetch behavior. -/
theorem upload_dry_run_no_fetch (env : UploadEnv) (ua fn : String)
    (data : Blob) (fetch : Request → FetchOutcome) :
    upload env true ua fn data fetch = (false, .ok ("dry run")) := rfl

/-- C8. main constructs the host with `new service()` — no argument — so the
instance keeps the constructor default dryRun = false whatever the parsed
dry-run flag says, and every upload main initiates invokes fetch. -/
theorem mainFileStep_ignores_dry_run
    (fns : HostCtor → (String → String) × (String → String)) (ua : String)
    (flags : Flags) (pick : Nat) (openAsBlob : String → Option Blob)
    (fetch : Request → FetchOutcome) (file : String) (data : Blob)
    (info : FileHostInfo) (hopen : openAsBlob file = some data)
    (hsel : service pick flags.service (basename file) data.size = .ok info) :
    (mainFileStep fns ua flags pick openAsBlob fetch file).1
      = (upload (envOf fns info.ctor) false ua file data fetch).1 ∧
    (mainFileStep fns ua flags pick openAsBlob fetch file).1 = true := by
  have hstep : mainFileStep fns ua flags pick openAsBlob fetch file
      = match upload (envOf fns info.ctor) false ua file data fetch with
        | (invoked, .ok url) => (invoked, .ok url)
        | (invoked, .error e) => (invoked, .error (.uploadFailed e)) := by
    simp only [mainFileStep, hopen, hsel]
  rcases hu : upload (envOf fns info.ctor) false ua file data fetch with ⟨inv, res⟩
  have hinv : inv = true := by
    have := upload_network_path (envOf fns info.ctor) ua file data fetch
    rw [hu] at this
    exact this
  cases res <;> simp [hstep, hu, hinv]

/-- C8 witness: with the dry-run flag set, a successful open and selection
still reach the network path. -/
theorem mainFileStep_ignores_dry_run_witness :
    (mainFileStep (fun _ => (id, id)) ("uloady/0.0.0")
        { help := false, dryRun := true, service := some ("x0at") } 0
        (fun _ => some { size := 5 }) (fun _ => .success ("ok")) ("f")).1 = true :=
  (mainFileStep_ignores_dry_run (fun _ => (id, id)) ("uloady/0.0.0")
    { help := false, dryRun := true, service := some ("x0at") } 0
    (fun _ => some { size := 5 }) (fun _ => .success ("ok")) ("f")
    { size := 5 } { ctor := .X0at, maxFileSize := 536870912, «default» := true }
    rfl rfl).2

/-- C9. After all fourteen subclasses have registered: every registry name
is unique, every maxFileSize is strictly positive, and every class's
formValues holds exactly one data-marker field. -/
theorem derivedClass_invariants :
    (derivedClass.map Prod.fst).Nodup ∧
    (∀ e ∈ derivedClass, 0 < e.2.maxFileSize) ∧
    (∀ e ∈ derivedClass,
      ((hostClass e.2.ctor).formValues.filter
        (fun p => p.2 = FormValue.dataToken)).length = 1) := by
  decide

/-- C10. getHumanFileSize divides by 1024 through the unit sequence until
the value is below 1024 (or units run out) and renders 3 significant
digits: 0 bytes gives "0.00B", 1048576 gives "1.00MiB", and 1099511627776
(1 TiB) gives "1.00TiB". -/
theorem getHumanFileSize_values :
    getHumanFileSize 0 = "0.00B" ∧
    getHumanFileSize 1048576 = "1.00MiB" ∧
    getHumanFileSize 1099511627776 = "1.00TiB" :=
  ⟨rfl, rfl, rfl⟩

end Uloady
